import Mathlib

/-!
Verification development for the `httpc` package: a reflective RPC-over-HTTP
gateway (server registration, swagger synthesis, dispatch) and a resilient
HTTP client with bounded retry and backoff.

The definitions below are shallow embeddings of the Go source:
  * `isValidHTTPMethod`, `MethodInfo` ..................... httpc.go
  * `ClientConfig`, `backoffDelay`, `callLoop`, `call` .... client.go (`HTTPClient.Call`)
  * `getServiceInfo`, `validateMethods` ................... reflect.go
  * `generateSchema`, `operationFor`, `updateSwaggerPaths`,
    `registerRoutes`, `registerService` ................... swagger.go / client.go
  * `handleMethod`, `finishCall`, `errorResponseBody` ..... client.go (`Server.handleMethod`)

External collaborators (gin binding/validator for struct inputs, the HTTP
transport) are modeled as explicit function parameters.  `encoding/json`
behaviour on the shapes the package actually uses (bare JSON strings and
`map[string]string`) is modeled by the executable parser in this file.
Go's `strings.ToUpper` / `strings.ToLower` are modeled on the ASCII range,
which covers every HTTP verb the code compares against.
-/

namespace Httpc

/-! ### ASCII case mapping (models `strings.ToUpper` / `strings.ToLower`) -/

def toUpperChar (c : Char) : Char :=
  if 97 ≤ c.toNat ∧ c.toNat ≤ 122 then Char.ofNat (c.toNat - 32) else c

def toLowerChar (c : Char) : Char :=
  if 65 ≤ c.toNat ∧ c.toNat ≤ 90 then Char.ofNat (c.toNat + 32) else c

def goToUpper (s : String) : String :=
  String.mk (s.data.map toUpperChar)

def goToLower (s : String) : String :=
  String.mk (s.data.map toLowerChar)

def isPfxOf : List Char → List Char → Bool
  | [], _ => true
  | _ :: _, [] => false
  | a :: as, b :: bs => a == b && isPfxOf as bs

def containsSub (pat : List Char) : List Char → Bool
  | [] => pat.isEmpty
  | c :: rest => isPfxOf pat (c :: rest) || containsSub pat rest

/-- Substring test, modeling Go's `strings.Contains`. -/
def containsSubstr (s pat : String) : Bool :=
  containsSub pat.data s.data

/-- Prefix test, modeling Go's `strings.HasPrefix`. -/
def hasPfx (s pat : String) : Bool :=
  isPfxOf pat.data s.data

def splitChar (sep : Char) : List Char → List (List Char)
  | [] => [[]]
  | c :: rest =>
    if c == sep then [] :: splitChar sep rest
    else
      match splitChar sep rest with
      | [] => [[c]]
      | h :: t => (c :: h) :: t

/-- Models Go's `strings.Split` with a one-character separator (the only
form the package uses). -/
def goSplitComma (s : String) : List String :=
  (splitChar ',' s.data).map String.mk

/-! ### A small JSON text model

Models the pieces of `encoding/json` the package exercises: decoding a bare
JSON string (`ShouldBindJSON` into `*string`) and decoding into
`map[string]string` (the client's error-body parse).  String escapes
`\" \\ \/ \b \f \n \r \t` are supported; `\uXXXX` escapes are not used by
any payload of this repository and are rejected by the model. -/

def skipWs : List Char → List Char
  | [] => []
  | c :: rest =>
    if c == ' ' || c == '\t' || c == '\n' || c == '\r' then skipWs rest
    else c :: rest

def escChar (e : Char) : Option Char :=
  if e == '"' then some '"'
  else if e == '\\' then some '\\'
  else if e == '/' then some '/'
  else if e == 'b' then some (Char.ofNat 8)
  else if e == 'f' then some (Char.ofNat 12)
  else if e == 'n' then some '\n'
  else if e == 'r' then some (Char.ofNat 13)
  else if e == 't' then some '\t'
  else none

/-- Parse the tail of a JSON string literal (everything after the opening
quote); returns the decoded characters and the input remaining after the
closing quote. -/
def parseStrAux : List Char → Option (List Char × List Char)
  | [] => none
  | c :: rest =>
    if c == '"' then some ([], rest)
    else if c == '\\' then
      match rest with
      | [] => none
      | e :: rest2 =>
        match escChar e with
        | some ce =>
          match parseStrAux rest2 with
          | some (s, r) => some (ce :: s, r)
          | none => none
        | none => none
    else if c.toNat < 32 then none
    else
      match parseStrAux rest with
      | some (s, r) => some (c :: s, r)
      | none => none

/-- Parse a JSON string literal (with its opening quote). -/
def parseJsonStrLit (l : List Char) : Option (String × List Char) :=
  match l with
  | [] => none
  | c :: rest =>
    if c == '"' then
      match parseStrAux rest with
      | some (s, r) => some (String.mk s, r)
      | none => none
    else none

def obraceChar : Char := Char.ofNat 123

def cbraceChar : Char := Char.ofNat 125

/-- Parse the members of a JSON object whose values are all strings.  Called
just after the opening brace.  The fuel is initialized to an over-estimate of
the member count (each member consumes at least five characters), so fuel
exhaustion never fires before the input does. -/
def parseMembersAux : Nat → List Char → Option (List (String × String) × List Char)
  | 0, _ => none
  | fuel + 1, l =>
    match parseJsonStrLit (skipWs l) with
    | none => none
    | some (k, r1) =>
      match skipWs r1 with
      | c :: r2 =>
        if c == ':' then
          match parseJsonStrLit (skipWs r2) with
          | none => none
          | some (v, r3) =>
            match skipWs r3 with
            | d :: r4 =>
              if d == ',' then
                match parseMembersAux fuel r4 with
                | some (kvs, r5) => some ((k, v) :: kvs, r5)
                | none => none
              else if d == cbraceChar then some ([(k, v)], r4)
              else none
            | [] => none
        else none
      | [] => none

/-- Models `json.Unmarshal(body, &m)` for `m : map[string]string`: succeeds
exactly when the whole input is a JSON object with string values (plus
surrounding whitespace). -/
def unmarshalStringMap (s : String) : Option (List (String × String)) :=
  match skipWs s.data with
  | [] => none
  | c :: rest =>
    if c == obraceChar then
      match skipWs rest with
      | d :: _ =>
        if d == cbraceChar then
          match skipWs rest with
          | _ :: r2 => if skipWs r2 == [] then some [] else none
          | [] => none
        else
          match parseMembersAux (rest.length + 1) rest with
          | some (kvs, r) => if skipWs r == [] then some kvs else none
          | none => none
      | [] => none
    else none

/-- Models `ShouldBindJSON` into a `*string`: the decoder reads one JSON
value from the body, which must be a string (trailing bytes are not read). -/
def parseJsonStringValue (s : String) : Option String :=
  match skipWs s.data with
  | [] => none
  | c :: rest =>
    if c == '"' then
      match parseStrAux rest with
      | some (content, _) => some (String.mk content)
      | none => none
    else none

/-! ### httpc.go: recognized HTTP verbs -/

/-- From `isValidHTTPMethod` (httpc.go): uppercase the candidate and compare
with the seven recognized verbs. -/
def isValidHTTPMethod (method : String) : Bool :=
  ["GET", "POST", "PUT", "DELETE", "PATCH", "OPTIONS", "HEAD"].any
    (fun valid => goToUpper method == valid)

/-! ### client.go: `ClientConfig`, backoff and the retry loop of `Call` -/

structure ClientConfig where
  maxRetries : Nat
  backoffBaseMs : Int
  backoffMaxMs : Int
  backoffFactor : Int
  disableBackoff : Bool

/-- The `validate` tags on `ClientConfig` (client.go), as enforced by
`NewHTTPClient`: retries in [0,5], base in [50,1000], max in [100,5000],
factor in [1,5].  Within these ranges the Go `int64` arithmetic in the
backoff computation is exact, so the `Int` model below is faithful. -/
def validClientConfig (cfg : ClientConfig) : Bool :=
  cfg.maxRetries ≤ 5 &&
  50 ≤ cfg.backoffBaseMs && cfg.backoffBaseMs ≤ 1000 &&
  100 ≤ cfg.backoffMaxMs && cfg.backoffMaxMs ≤ 5000 &&
  1 ≤ cfg.backoffFactor && cfg.backoffFactor ≤ 5

/-- The delay slept after a retryable failure on attempt `attempt`
(client.go):
`backoff := h.config.BackoffBaseMs * int64(1<<uint(attempt-1))`, capped at
`BackoffMaxMs`.  Note the shift `1<<(attempt-1)`: the multiplier is the
constant 2, not the configured `BackoffFactor`. -/
def backoffDelay (cfg : ClientConfig) (attempt : Nat) : Int :=
  let backoff := cfg.backoffBaseMs * ((2 : Int) ^ (attempt - 1))
  if backoff > cfg.backoffMaxMs then cfg.backoffMaxMs else backoff

/-- What one attempt of the transport produces: a failure of `h.client.Do`,
or a response with a status code and a body. -/
inductive AttemptResult where
  | transportError
  | response (status : Nat) (body : String)

inductive CallResult where
  | ok
  | marshalFailed
  | requestFailed
  | unmarshalFailed
  | statusErr (status : Nat) (msg : String)
  | invalidMethod (msg : String)
  | allRetriesFailed
deriving BEq

/-- The client's parse of a non-2xx body (client.go): if the body is
non-empty, unmarshals into `map[string]string` and uses a non-empty
`error` entry; otherwise the message is "unknown error". -/
def errorMessageOfBody (body : String) : String :=
  if body.length > 0 then
    match unmarshalStringMap body with
    | some kvs =>
      match kvs.lookup "error" with
      | some msg => if msg != "" then msg else "unknown error"
      | none => "unknown error"
    | none => "unknown error"
  else "unknown error"

/-- The retry loop of `HTTPClient.Call` (client.go), for
`attempt := 1; attempt <= maxRetries+1; attempt++`.  `respond k` is the
transport's outcome for attempt `k`; `hasOutput` is whether an output
destination was supplied and `unmarshalOk body` whether decoding the body
into it succeeds.  Returns the result, the number of attempts performed,
and the list of backoff delays slept (in order). -/
def callLoop (cfg : ClientConfig) (respond : Nat → AttemptResult) (hasOutput : Bool)
    (unmarshalOk : String → Bool) : Nat → Nat → CallResult × Nat × List Int
  | _, 0 => (.allRetriesFailed, 0, [])
  | attempt, fuel + 1 =>
    match respond attempt with
    | .transportError =>
      if attempt == cfg.maxRetries + 1 then (.requestFailed, 1, [])
      else
        let res := callLoop cfg respond hasOutput unmarshalOk (attempt + 1) fuel
        (res.1, res.2.1 + 1, res.2.2)
    | .response status body =>
      if 200 ≤ status && status < 300 then
        if hasOutput then
          if unmarshalOk body then (.ok, 1, []) else (.unmarshalFailed, 1, [])
        else (.ok, 1, [])
      else if status < 500 || attempt == cfg.maxRetries + 1 then
        (.statusErr status (errorMessageOfBody body), 1, [])
      else if cfg.disableBackoff then
        let res := callLoop cfg respond hasOutput unmarshalOk (attempt + 1) fuel
        (res.1, res.2.1 + 1, res.2.2)
      else
        let d := backoffDelay cfg attempt
        let res := callLoop cfg respond hasOutput unmarshalOk (attempt + 1) fuel
        (res.1, res.2.1 + 1, d :: res.2.2)

/-- `HTTPClient.Call` (client.go).  The method is uppercased and checked
against the recognized verbs before anything else; then the input is
marshaled once (`input = none` models a nil input, `some none` an input
whose `json.Marshal` fails, `some (some s)` a successful serialization);
then the retry loop runs. -/
def call (cfg : ClientConfig) (method : String) (input : Option (Option String))
    (respond : Nat → AttemptResult) (hasOutput : Bool) (unmarshalOk : String → Bool) :
    CallResult × Nat × List Int :=
  let m := goToUpper method
  if !isValidHTTPMethod m then
    (.invalidMethod ("invalid HTTP method: " ++ m), 0, [])
  else
    match input with
    | some none => (.marshalFailed, 0, [])
    | _ => callLoop cfg respond hasOutput unmarshalOk 1 (cfg.maxRetries + 1)

/-! ### Go types and reflected values

`GoType` models `reflect.Type` for the kinds the package handles; struct
fields carry the `json` tag, the `validate` tag and the field type, in
declaration order. -/

inductive GoType where
  | stringT
  | intT
  | int32T
  | int64T
  | float32T
  | float64T
  | boolT
  | ptrT (t : GoType)
  | structT (fields : List (String × String × GoType))

/-- `reflect.Kind.String()` for the modeled kinds. -/
def kindString : GoType → String
  | .stringT => "string"
  | .intT => "int"
  | .int32T => "int32"
  | .int64T => "int64"
  | .float32T => "float32"
  | .float64T => "float64"
  | .boolT => "bool"
  | .ptrT _ => "ptr"
  | .structT _ => "struct"

/-- `t.Kind() == reflect.String`. -/
def GoType.kindIsString : GoType → Bool
  | .stringT => true
  | _ => false

/-- Dynamic type of a reflected value, used to model the type check
`reflect.Value.Call` performs on its argument. -/
inductive RKind where
  | strK
  | structK (tyName : String)
  | ptrK (k : RKind)
deriving BEq

/-- A reflected value: a string, a named struct value, or a pointer. -/
inductive RVal where
  | strV (s : String)
  | structV (tyName : String) (fields : List (String × RVal))
  | ptrV (v : RVal)

def rkindOf : RVal → RKind
  | .strV _ => .strK
  | .structV n _ => .structK n
  | .ptrV v => .ptrK (rkindOf v)

/-- `reflect.Value.Elem()` on a pointer (the only place the dispatcher uses
it, on values produced by `reflect.New`). -/
def derefRVal : RVal → RVal
  | .ptrV v => v
  | v => v

/-- A bound callable (`MethodInfo.Func`): the argument type its real
signature expects, and its behaviour `(input) → (output, error)`. -/
structure FuncM where
  inKind : RKind
  impl : RVal → RVal × Option String

/-- `m.Func.Call([]reflect.Value{arg})` for a `(T) (U, error)` method:
a zero `reflect.Value` or an argument of the wrong dynamic type panics,
otherwise the callable runs.  The panic strings abbreviate Go's panic
messages. -/
def callFunc : Option FuncM → RVal → Except String (RVal × Option String)
  | none, _ => .error "reflect: call of reflect.Value.Call on zero Value"
  | some f, arg =>
    if rkindOf arg == f.inKind then .ok (f.impl arg)
    else .error "reflect: Call using argument of wrong type"

/-! ### httpc.go / reflect.go: `MethodInfo` and `getServiceInfo` -/

/-- `MethodInfo` (httpc.go).  `func = none` models a zero `reflect.Value`
in the `Func` field. -/
structure MethodInfo where
  name : String
  httpMethod : String
  inputType : GoType
  outputType : GoType
  func : Option FuncM

/-- The signature data `reflect` reports for a method found by name:
`NumIn()` (receiver included), `NumOut()`, whether `Out(1)` is the `error`
interface, and the method's function. -/
structure MethodSig where
  numIn : Nat
  numOut : Nat
  out1IsError : Bool
  func : FuncM

/-- A service value: whether a `RegisterMethods` method with the right
signature exists, the `[]MethodInfo` it returns, and the service's method
set as seen by `reflect` (`MethodByName`). -/
structure ServiceM where
  hasRegisterMethods : Bool
  methods : List MethodInfo
  methodSet : List (String × MethodSig)

/-- The signature check of `getServiceInfo` (reflect.go):
`meth.Type.NumIn() != 2 || meth.Type.NumOut() != 2 || meth.Type.Out(1) != error`. -/
def sigInvalid (sig : MethodSig) : Bool :=
  sig.numIn != 2 || sig.numOut != 2 || !sig.out1IsError

/-- The validation loop of `getServiceInfo` (reflect.go), returning the
first error, if any.  Note the final statement of the Go loop body,
`method.Func = meth.Func`: it assigns to `method`, the per-iteration copy
produced by `range`, which is then discarded — the slice entry itself is
never updated.  The dead binding below mirrors that. -/
def validateMethods (svc : ServiceM) : List MethodInfo → Option String
  | [] => none
  | m :: rest =>
    if m.name == "" || m.httpMethod == "" then
      some "invalid MethodInfo: Name or HTTPMethod is empty"
    else
      match svc.methodSet.lookup m.name with
      | none => some ("method " ++ m.name ++ " not found")
      | some sig =>
        if sigInvalid sig then
          some ("invalid signature for method " ++ m.name)
        else
          let _copy : MethodInfo := { m with func := some sig.func }
          validateMethods svc rest

/-- `getServiceInfo` (reflect.go): require `RegisterMethods`, validate every
declared entry, reject empty services, and return the declared slice. -/
def getServiceInfo (svc : ServiceM) : Except String (List MethodInfo) :=
  if !svc.hasRegisterMethods then .error "no RegisterMethods method found"
  else
    match validateMethods svc svc.methods with
    | some e => .error e
    | none =>
      if svc.methods.length == 0 then .error "no methods defined for service"
      else .ok svc.methods

/-! ### client.go: `Server.handleMethod` -/

/-- An inbound request as the handler sees it: query parameters (in order)
and the raw body. -/
structure Request where
  query : List (String × String)
  body : String

/-- `c.Query(key)`: first value of the named query parameter, or the empty
string when it is absent. -/
def queryParam (req : Request) (key : String) : String :=
  (req.query.lookup key).getD ""

/-- What the handler writes back.  `okJson` is `c.JSON(200, v)`;
`badRequest` is `c.JSON(400, gin.H{...})` with the given error message
(gin escapes it properly); `serverError` is `c.Data(500, ...)` with the
given raw bytes; `panicked` is a panic out of the handler (caught by the
`gin.Recovery` middleware, yielding an empty 500). -/
inductive Response where
  | okJson (v : RVal)
  | badRequest (msg : String)
  | serverError (rawBody : String)
  | panicked (msg : String)

/-- The raw 500 body of `handleMethod` (client.go): the bytes of
`{"error":"` + err.Error() + `"}` — plain string concatenation, with no
JSON escaping of the message. -/
def errorResponseBody (msg : String) : String :=
  "\x7b\"error\":\"" ++ msg ++ "\"\x7d"

/-- External collaborators of the struct-input paths: gin's query/JSON
binding into a freshly allocated `*T` (the returned value models that
pointer) and `validator.Struct`. -/
structure ExternalBind where
  bindQuery : GoType → List (String × String) → Except String RVal
  bindJson : GoType → String → Except String RVal
  validateStruct : RVal → Option String

/-- The tail of `handleMethod` (client.go): build `callInput` —
`reflect.ValueOf(inputVal)` when the input type has string kind, otherwise
`reflect.ValueOf(inputVal).Elem()` — invoke the bound callable, and encode
the outcome (non-nil error → raw 500 body, otherwise 200). -/
def finishCall (m : MethodInfo) (inputVal : RVal) : Response :=
  let callInput := if m.inputType.kindIsString then inputVal else derefRVal inputVal
  match callFunc m.func callInput with
  | .error p => .panicked p
  | .ok (_, some errMsg) => .serverError (errorResponseBody errMsg)
  | .ok (out, none) => .okJson out

/-- `Server.handleMethod` (client.go).  For a string-kinded input type: a
GET reads the query parameter literally named "name" (`inputVal` holds a
string); otherwise the body is decoded as a bare JSON string into a new
`*string` (`inputVal` holds that pointer — note `finishCall` does not
dereference it on this path).  For other input types: bind from query (GET)
or JSON body, then validate. -/
def handleMethod (ext : ExternalBind) (m : MethodInfo) (req : Request) : Response :=
  if m.inputType.kindIsString then
    if m.httpMethod == "GET" then
      finishCall m (.strV (queryParam req "name"))
    else
      match parseJsonStringValue req.body with
      | none => .badRequest "invalid JSON body"
      | some s => finishCall m (.ptrV (.strV s))
  else
    match
      (if m.httpMethod == "GET" then ext.bindQuery m.inputType req.query
       else ext.bindJson m.inputType req.body) with
    | .error e => .badRequest e
    | .ok pv =>
      match ext.validateStruct pv with
      | some e => .badRequest ("validation failed: " ++ e)
      | none => finishCall m pv

/-! ### swagger.go: `generateSchema` and `updateSwaggerDoc` -/

/-- Longest leading run of ASCII digits. -/
def takeDigits : List Char → List Char × List Char
  | [] => ([], [])
  | c :: rest =>
    if c.isDigit then
      let p := takeDigits rest
      (c :: p.1, p.2)
    else ([], c :: rest)

def digitsToNat (l : List Char) : Nat :=
  l.foldl (fun acc c => acc * 10 + (c.toNat - 48)) 0

/-- Models `parseInt` (swagger.go), i.e. `fmt.Sscanf(s, "%d")`: an optional
sign followed by at least one digit; trailing input is ignored. -/
def parseIntGo (s : String) : Option Int :=
  match s.data with
  | '-' :: rest =>
    let p := takeDigits rest
    if p.1 == [] then none else some (-(digitsToNat p.1 : Int))
  | '+' :: rest =>
    let p := takeDigits rest
    if p.1 == [] then none else some ((digitsToNat p.1 : Int))
  | l =>
    let p := takeDigits l
    if p.1 == [] then none else some ((digitsToNat p.1 : Int))

/-- Models `parseFloat` (swagger.go), i.e. `fmt.Sscanf(s, "%f")`, for plain
decimal forms: optional sign, digits, optional fraction.  (Exponent forms
never appear in this repository's `validate` tags.) -/
def parseFloatGo (s : String) : Option Rat :=
  let core : List Char → Option Rat := fun l =>
    let p := takeDigits l
    if p.1 == [] then none
    else
      match p.2 with
      | '.' :: rest2 =>
        let q := takeDigits rest2
        some ((digitsToNat p.1 : Rat) + (digitsToNat q.1 : Rat) / (10 : Rat) ^ q.1.length)
      | _ => some ((digitsToNat p.1 : Rat))
  match s.data with
  | '-' :: rest => (core rest).map (fun r => -r)
  | '+' :: rest => core rest
  | l => core l

/-- `strings.TrimPrefix` under a known `HasPrefix`: drop the prefix. -/
def dropPfx (part pfxStr : String) : String :=
  String.mk (part.data.drop pfxStr.data.length)

/-- The constraint-extraction pattern of `generateSchema` (swagger.go): if
the `validate` tag contains the marker, scan its comma-separated parts and
keep the last successfully parsed value of a part with that marker as
prefix. -/
def tagBoundInt (vt pfxStr : String) : Option Rat :=
  if containsSubstr vt pfxStr then
    (((goSplitComma vt).filterMap
        (fun part => if hasPfx part pfxStr then parseIntGo (dropPfx part pfxStr) else none)).map
      (fun n => (n : Rat))).getLast?
  else none

def tagBoundFloat (vt pfxStr : String) : Option Rat :=
  if containsSubstr vt pfxStr then
    ((goSplitComma vt).filterMap
      (fun part => if hasPfx part pfxStr then parseFloatGo (dropPfx part pfxStr) else none)).getLast?
  else none

/-- A swagger schema node.  `emptyNode` is the empty map a field schema is
left as when no switch case applies (there is no case for `reflect.Bool`
or `reflect.Ptr` fields); `prim` carries the `type` marker and the optional
`minLength`/`maxLength`/`minimum`/`maximum`/`format` entries; `obj` is a
node with `type: "object"`, `properties`, and a `required` list (the
`required` key is emitted only when the list is non-empty). -/
inductive Schema where
  | emptyNode
  | prim (ty : String) (minLength maxLength minimum maximum : Option Rat)
      (format : Option String)
  | obj (properties : List (String × Schema)) (required : List String)

/-- The `type` entry of a schema node, if any. -/
def Schema.typeOf : Schema → Option String
  | .emptyNode => none
  | .prim ty _ _ _ _ _ => some ty
  | .obj _ _ => some "object"

def Schema.lookupProp (s : Schema) (key : String) : Option Schema :=
  match s with
  | .obj props _ => props.lookup key
  | _ => none

/-- Assignment into a Go map modeled as an ordered association list:
overwrite the existing key in place, or append. -/
def assocSet {α : Type} (key : String) (v : α) : List (String × α) → List (String × α)
  | [] => [(key, v)]
  | (k, w) :: rest => if k == key then (k, v) :: rest else (k, w) :: assocSet key v rest

mutual

/-- The struct arm of `generateSchema` (swagger.go): walk the fields in
declaration order, building `properties` and `required`. -/
def genStruct (fields : List (String × String × GoType)) : Schema :=
  let pr := genFieldsAux fields ([], [])
  .obj pr.1 pr.2

/-- The field loop of `generateSchema`: fields whose `json` tag is empty or
"-" are skipped; the external name is the part of the tag before the first
comma; a field whose `validate` tag contains "required" is appended to the
parent's required list. -/
def genFieldsAux :
    List (String × String × GoType) → List (String × Schema) × List String →
    List (String × Schema) × List String
  | [], acc => acc
  | (jsonTag, vt, ftype) :: rest, acc =>
    if jsonTag == "" || jsonTag == "-" then genFieldsAux rest acc
    else
      let jsonName := (goSplitComma jsonTag).headD ""
      let fs := fieldSchemaOf vt ftype
      genFieldsAux rest
        (assocSet jsonName fs acc.1,
         if containsSubstr vt "required" then acc.2 ++ [jsonName] else acc.2)

/-- The `switch field.Type.Kind()` of `generateSchema`: strings get
`minLength`/`maxLength`/`format`; integer kinds get `minimum`/`maximum`;
float kinds get only `minimum`; struct fields recurse; every other kind
(notably `Bool`) falls through with the field schema left empty. -/
def fieldSchemaOf (vt : String) : GoType → Schema
  | .stringT =>
    .prim "string" (tagBoundInt vt "min=") (tagBoundInt vt "max=") none none
      (if containsSubstr vt "email" then some "email" else none)
  | .intT =>
    .prim "integer" none none (tagBoundInt vt "gte=") (tagBoundInt vt "lte=") none
  | .int32T =>
    .prim "integer" none none (tagBoundInt vt "gte=") (tagBoundInt vt "lte=") none
  | .int64T =>
    .prim "integer" none none (tagBoundInt vt "gte=") (tagBoundInt vt "lte=") none
  | .float32T =>
    .prim "number" none none (tagBoundFloat vt "gte=") none none
  | .float64T =>
    .prim "number" none none (tagBoundFloat vt "gte=") none none
  | .structT fields2 => genStruct fields2
  | _ => .emptyNode

end

/-- `generateSchema` (swagger.go): unwrap one pointer level; non-struct
types yield a bare node with the kind's name as `type`; structs are walked
field by field. -/
def generateSchema (t : GoType) : Schema :=
  match (match t with | .ptrT u => u | u => u) with
  | .structT fields => genStruct fields
  | u => .prim (kindString u) none none none none none

/-- The fixed error-body schema declared for the 400 and 500 responses. -/
def errorSchema : Schema :=
  .obj [("error", .prim "string" none none none none none)] []

structure QueryParam where
  name : String
  location : String
  required : Bool
  schemaType : String
deriving BEq

/-- One swagger operation object as `updateSwaggerDoc` builds it
(swagger.go): id and summary from the method name, a 200 response typed by
the output type's kind string, fixed 400/500 error responses, and — keyed
on the verb being literally "GET" — either the single optional string query
parameter named "name" or a request body schema generated from the input
type. -/
structure Operation where
  operationId : String
  summary : String
  response200Type : String
  response400 : Schema
  response500 : Schema
  parameters : Option (List QueryParam)
  requestBody : Option Schema

def operationFor (m : MethodInfo) : Operation :=
  { operationId := m.name
    summary := m.name
    response200Type := kindString m.outputType
    response400 := errorSchema
    response500 := errorSchema
    parameters :=
      if m.httpMethod == "GET" then
        some [{ name := "name", location := "query", required := false,
                schemaType := "string" }]
      else none
    requestBody :=
      if m.httpMethod == "GET" then none else some (generateSchema m.inputType) }

/-- The swagger `paths` map: path → (lowercased verb → operation). -/
def SwaggerPaths : Type := List (String × List (String × Operation))

/-- The path key used by `updateSwaggerDoc` (swagger.go). -/
def swaggerPathFor (pfx : String) (name : String) : String :=
  let path := pfx ++ "/" ++ name
  if hasPfx path "/" then path else "/" ++ path

/-- The method loop of `updateSwaggerDoc` (swagger.go): entries whose verb
is not recognized are skipped; each remaining method stores its operation
under its path and lowercased verb. -/
def updateSwaggerPaths (paths : SwaggerPaths) (methods : List MethodInfo) (pfx : String) :
    SwaggerPaths :=
  methods.foldl
    (fun ps m =>
      if !isValidHTTPMethod m.httpMethod then ps
      else
        let path := swaggerPathFor pfx m.name
        let item := ((ps : List (String × List (String × Operation))).lookup path).getD []
        assocSet path (assocSet (goToLower m.httpMethod) (operationFor m) item) ps)
    paths

/-- `updateSwaggerDoc` (swagger.go): re-introspect the service, then extend
the paths map. -/
def updateSwaggerDoc (paths : SwaggerPaths) (svc : ServiceM) (pfx : String) :
    Except String SwaggerPaths :=
  match getServiceInfo svc with
  | .error e => .error e
  | .ok info => .ok (updateSwaggerPaths paths info pfx)

/-! ### client.go: `registerMethods` and `RegisterService` -/

/-- The route bindings made by `Server.registerMethods` (client.go): one
(uppercased verb, path) binding per method whose verb is recognized; the
`default` arm of the switch skips anything else. -/
def registerRoutes (methods : List MethodInfo) (pfx : String) : List (String × String) :=
  methods.filterMap
    (fun m =>
      if isValidHTTPMethod m.httpMethod then
        some (goToUpper m.httpMethod, pfx ++ "/" ++ m.name)
      else none)

/-- `Server.registerMethods` (client.go): bind the routes; when at least one
method was declared, update the swagger document — a failure there is only
logged; registration itself always returns nil. -/
def registerMethodsModel (svc : ServiceM) (methods : List MethodInfo) (pfx : String)
    (paths : SwaggerPaths) : Except String (List (String × String) × SwaggerPaths) :=
  let routes := registerRoutes methods pfx
  let newPaths :=
    if methods.length > 0 then
      match updateSwaggerDoc paths svc pfx with
      | .ok ps => ps
      | .error _ => paths
    else paths
  .ok (routes, newPaths)

/-- `Server.RegisterService` (client.go) on a server whose swagger paths
start empty: introspect, then register. -/
def registerService (svc : ServiceM) (pfx : String) :
    Except String (List (String × String) × SwaggerPaths) :=
  match getServiceInfo svc with
  | .error e => .error ("failed to get service info: " ++ e)
  | .ok methods => registerMethodsModel svc methods pfx ([] : SwaggerPaths)

/-! ### Helper lemmas -/

theorem toNat_ofNat_lt {n : Nat} (h : n < 55296) : (Char.ofNat n).toNat = n := by
  rw [Char.ofNat, dif_pos (Or.inl h)]
  simp [Char.ofNatAux, Char.toNat, UInt32.ofNat', UInt32.toNat, BitVec.ofNatLt]

theorem toUpperChar_idem (c : Char) : toUpperChar (toUpperChar c) = toUpperChar c := by
  unfold toUpperChar
  by_cases h : 97 ≤ c.toNat ∧ c.toNat ≤ 122
  · rw [if_pos h]
    have h2 : (Char.ofNat (c.toNat - 32)).toNat = c.toNat - 32 := toNat_ofNat_lt (by omega)
    rw [if_neg (by omega)]
  · rw [if_neg h, if_neg h]

theorem goToUpper_idem (s : String) : goToUpper (goToUpper s) = goToUpper s := by
  show String.mk ((s.data.map toUpperChar).map toUpperChar) = String.mk (s.data.map toUpperChar)
  rw [List.map_map]
  congr 1
  apply List.map_congr_left
  intro c _
  exact toUpperChar_idem c

/-- Uppercasing first does not change verb recognition: the recognizer
itself uppercases its argument. -/
theorem isValid_goToUpper (s : String) :
    isValidHTTPMethod (goToUpper s) = isValidHTTPMethod s := by
  simp only [isValidHTTPMethod, goToUpper_idem]

end Httpc

namespace Httpc

/-! ### Shared concrete fixtures used by witnesses -/

/-- A `(string) (string, error)` method used as a bound callable in
concrete instances: echoes its input, never errors. -/
def echoFunc : FuncM :=
  { inKind := .strK, impl := fun v => (v, none) }

/-- External binder stub for capabilities whose input type is a string:
those code paths never consult it. -/
def noBind : ExternalBind :=
  { bindQuery := fun _ _ => .error "unused"
    bindJson := fun _ _ => .error "unused"
    validateStruct := fun _ => none }

/-- A method whose reflected signature satisfies the introspection check. -/
def sigOK : MethodSig := { numIn := 2, numOut := 2, out1IsError := true, func := echoFunc }

/-! ### Claim C1 -/

def cfgFactor3 : ClientConfig :=
  { maxRetries := 3, backoffBaseMs := 100, backoffMaxMs := 5000, backoffFactor := 3,
    disableBackoff := false }

/-- Claim C1 (code bug): the claim says the delay slept before retry number
`attempt+1` is `min(baseDelay * factor^(attempt-1), maxDelay)` with `factor`
the configured `http_client_backoff_factor`.  The code computes
`BackoffBaseMs * (1 << (attempt-1))`, i.e. always multiplier 2.  With the
valid configuration base=100ms, max=5000ms, factor=3, a call that keeps
receiving 503 sleeps [100, 200, 400] ms, but the claimed formula gives
300 ≠ 200 already at attempt 2. -/
theorem C1_backoff_ignores_factor :
    validClientConfig cfgFactor3 = true ∧
    (call cfgFactor3 "GET" none (fun _ => .response 503 "") false (fun _ => true)).2.2 =
      [100, 200, 400] ∧
    backoffDelay cfgFactor3 2 = 200 ∧
    min (cfgFactor3.backoffBaseMs * cfgFactor3.backoffFactor ^ (2 - 1))
        cfgFactor3.backoffMaxMs = 300 ∧
    (200 : Int) ≠ 300 := by
  refine ⟨rfl, by decide, by decide, by decide, by decide⟩

/-! ### Claim C2 -/

/-- A capability whose bound callable fails with an error message that
contains double quotes. -/
def mQuoteErr : MethodInfo :=
  { name := "GetMethod", httpMethod := "GET", inputType := .stringT, outputType := .stringT,
    func := some { inKind := .strK,
                   impl := fun _ => (.strV "", some "simulated \"server\" error") } }

/-- Claim C2 (code bug): the 500 body is built by plain concatenation, so a
handler error message containing a double quote yields a body that is not
valid JSON.  The dispatcher produces exactly that raw body; the client-side
`map[string]string` unmarshal (the model of `json.Unmarshal`) rejects it,
while the same body built from a quote-free message parses and carries the
message under the "error" key. -/
theorem C2_error_body_not_json :
    handleMethod noBind mQuoteErr { query := [("name", "error")], body := "" } =
      .serverError (errorResponseBody "simulated \"server\" error") ∧
    errorResponseBody "simulated \"server\" error" =
      "\x7b\"error\":\"simulated \"server\" error\"\x7d" ∧
    unmarshalStringMap (errorResponseBody "simulated \"server\" error") = none ∧
    unmarshalStringMap (errorResponseBody "simulated server error") =
      some [("error", "simulated server error")] := by
  refine ⟨rfl, rfl, by decide, by decide⟩

/-! ### Claim C5 -/

def mHelloGet : MethodInfo :=
  { name := "Hello", httpMethod := "GET", inputType := .stringT, outputType := .stringT,
    func := some echoFunc }

def mEchoPost : MethodInfo :=
  { name := "Echo", httpMethod := "POST", inputType := .stringT, outputType := .stringT,
    func := some echoFunc }

/-- Claim C5 (code bug): the GET half holds — the handler reads the "name"
query parameter, a missing parameter yields the empty string, and the
callable is invoked with that string.  But on a non-GET request the decoded
bare JSON string is left inside the `*string` the binder filled
(`finishCall` does not dereference on the string-kind path), so the
reflected call receives a `*string` where the method expects a `string`
and panics instead of producing a 200. -/
theorem C5_string_input_dispatch :
    handleMethod noBind mHelloGet { query := [("name", "Test")], body := "" } =
      .okJson (.strV "Test") ∧
    handleMethod noBind mHelloGet { query := [], body := "" } =
      .okJson (.strV "") ∧
    parseJsonStringValue "\"abc\"" = some "abc" ∧
    handleMethod noBind mEchoPost { query := [], body := "\"abc\"" } =
      .panicked "reflect: Call using argument of wrong type" := by
  refine ⟨rfl, rfl, by decide, rfl⟩

/-! ### Claim C7 -/

/-- Claim C7: a call whose verb is not one of the seven recognized HTTP
verbs fails immediately with the invalid-method error naming the
(uppercased) rejected verb, performs zero network attempts, and sleeps no
backoff.  The failure precedes input serialization: the conclusion holds
for every `input`, including one whose serialization would fail. -/
theorem C7_invalid_method_preflight (cfg : ClientConfig) (method : String)
    (input : Option (Option String)) (respond : Nat → AttemptResult)
    (hasOutput : Bool) (unmarshalOk : String → Bool)
    (h : isValidHTTPMethod method = false) :
    call cfg method input respond hasOutput unmarshalOk =
      (.invalidMethod ("invalid HTTP method: " ++ goToUpper method), 0, []) ∧
    (goToUpper method).data <:+: ("invalid HTTP method: " ++ goToUpper method).data := by
  constructor
  · simp [call, isValid_goToUpper, h]
  · exact ⟨"invalid HTTP method: ".data, [], by simp⟩

/-- Witness for C7: the verb "INVALID" with an input whose serialization
would fail is rejected before serialization and before any attempt. -/
theorem C7_witness :
    call cfgFactor3 "INVALID" (some none) (fun _ => .response 200 "") false (fun _ => true) =
      (.invalidMethod ("invalid HTTP method: " ++ goToUpper "INVALID"), 0, []) ∧
    (goToUpper "INVALID").data <:+:
      ("invalid HTTP method: " ++ goToUpper "INVALID").data :=
  C7_invalid_method_preflight cfgFactor3 "INVALID" (some none)
    (fun _ => .response 200 "") false (fun _ => true) (by decide)

/-! ### Claim C3 -/

/-- One iteration of the retry loop when the attempt's response is a 503:
terminal on the last attempt, otherwise a retry (with a backoff delay
unless disabled). -/
theorem callLoop_step_503 (cfg : ClientConfig) (respond : Nat → AttemptResult)
    (hasOutput : Bool) (unmarshalOk : String → Bool) (attempt fuel : Nat) (body : String)
    (hr : respond attempt = .response 503 body) :
    callLoop cfg respond hasOutput unmarshalOk attempt (fuel + 1) =
      (if attempt == cfg.maxRetries + 1 then
        (.statusErr 503 (errorMessageOfBody body), 1, [])
      else if cfg.disableBackoff then
        ((callLoop cfg respond hasOutput unmarshalOk (attempt + 1) fuel).1,
         (callLoop cfg respond hasOutput unmarshalOk (attempt + 1) fuel).2.1 + 1,
         (callLoop cfg respond hasOutput unmarshalOk (attempt + 1) fuel).2.2)
      else
        ((callLoop cfg respond hasOutput unmarshalOk (attempt + 1) fuel).1,
         (callLoop cfg respond hasOutput unmarshalOk (attempt + 1) fuel).2.1 + 1,
         backoffDelay cfg attempt ::
           (callLoop cfg respond hasOutput unmarshalOk (attempt + 1) fuel).2.2)) := by
  simp only [callLoop, hr]
  norm_num

/-- A server that answers 503 on every attempt drives the loop through all
its remaining attempts and ends in a 503 status error. -/
theorem callLoop_all503 (cfg : ClientConfig) (respond : Nat → AttemptResult)
    (hasOutput : Bool) (unmarshalOk : String → Bool) (bodies : Nat → String)
    (hresp : ∀ k, respond k = .response 503 (bodies k)) :
    ∀ fuel attempt, 1 ≤ fuel → attempt + fuel = cfg.maxRetries + 2 →
      ∃ msg ds, callLoop cfg respond hasOutput unmarshalOk attempt fuel =
        (.statusErr 503 msg, fuel, ds) := by
  intro fuel
  induction fuel with
  | zero => intro attempt h1 _; omega
  | succ f ih =>
    intro attempt _ h2
    rw [callLoop_step_503 cfg respond hasOutput unmarshalOk attempt f (bodies attempt)
      (hresp attempt)]
    rcases Nat.eq_zero_or_pos f with hf | hf
    · subst hf
      have ha : (attempt == cfg.maxRetries + 1) = true := by
        simp only [beq_iff_eq]; omega
      rw [if_pos ha]
      exact ⟨errorMessageOfBody (bodies attempt), [], rfl⟩
    · have ha : (attempt == cfg.maxRetries + 1) = false := by
        simp only [beq_eq_false_iff_ne]; omega
      rw [if_neg (by simp [ha])]
      obtain ⟨msg, ds, hrec⟩ := ih (attempt + 1) (by omega) (by omega)
      by_cases hdb : cfg.disableBackoff
      · rw [if_pos hdb, hrec]
        exact ⟨msg, ds, rfl⟩
      · rw [if_neg hdb, hrec]
        exact ⟨msg, backoffDelay cfg attempt :: ds, rfl⟩

/-- Claim C3: with `maxRetries = N` and a valid verb, a call against a
server answering 503 on every attempt performs exactly N+1 attempts and
then returns a terminal status error carrying 503; the attempt count of
the result shows no attempt follows it. -/
theorem C3_retry_bound (cfg : ClientConfig) (method : String)
    (input : Option (Option String)) (respond : Nat → AttemptResult)
    (hasOutput : Bool) (unmarshalOk : String → Bool) (bodies : Nat → String)
    (hm : isValidHTTPMethod method = true)
    (hin : input ≠ some none)
    (hresp : ∀ k, respond k = .response 503 (bodies k)) :
    ∃ msg ds, call cfg method input respond hasOutput unmarshalOk =
      (.statusErr 503 msg, cfg.maxRetries + 1, ds) := by
  have hloop := callLoop_all503 cfg respond hasOutput unmarshalOk bodies hresp
    (cfg.maxRetries + 1) 1 (by omega) (by omega)
  obtain ⟨msg, ds, hl⟩ := hloop
  refine ⟨msg, ds, ?_⟩
  simp only [call, isValid_goToUpper, hm, Bool.not_true, Bool.false_eq_true, if_false]
  match input, hin with
  | none, _ => exact hl
  | some (some s), _ => exact hl
  | some none, hin => exact absurd rfl hin

/-- Witness for C3: maxRetries = 2 and a constant-503 server yield exactly
3 attempts and a 503 status error. -/
theorem C3_witness :
    ∃ msg ds,
      call { maxRetries := 2, backoffBaseMs := 100, backoffMaxMs := 1000,
             backoffFactor := 2, disableBackoff := false }
        "GET" none (fun _ => .response 503 "") false (fun _ => true) =
        (.statusErr 503 msg, 3, ds) :=
  C3_retry_bound
    { maxRetries := 2, backoffBaseMs := 100, backoffMaxMs := 1000,
      backoffFactor := 2, disableBackoff := false }
    "GET" none (fun _ => .response 503 "") false (fun _ => true) (fun _ => "")
    (by decide) (by simp) (fun _ => rfl)

/-! ### Claim C4 -/

/-- If every declared entry passes the emptiness and method-existence
checks but some entry's method has an invalid signature, the validation
loop stops at the first such entry with its invalid-signature error. -/
theorem validateMethods_invalid_sig (svc : ServiceM) :
    ∀ l : List MethodInfo,
      (∀ m ∈ l, (m.name == "") = false ∧ (m.httpMethod == "") = false ∧
        ∃ sig, svc.methodSet.lookup m.name = some sig) →
      (∃ m ∈ l, ∃ sig, svc.methodSet.lookup m.name = some sig ∧ sigInvalid sig = true) →
      ∃ nm, validateMethods svc l = some ("invalid signature for method " ++ nm) := by
  intro l
  induction l with
  | nil => intro _ hbad; simp at hbad
  | cons m rest ih =>
    intro hok hbad
    obtain ⟨hn, hv, sig, hsig⟩ := hok m (List.mem_cons_self m rest)
    simp only [validateMethods, hn, hv, Bool.or_self, Bool.false_eq_true, if_false, hsig]
    by_cases hinv : sigInvalid sig = true
    · rw [if_pos hinv]
      exact ⟨m.name, rfl⟩
    · rw [if_neg hinv]
      apply ih
      · intro x hx; exact hok x (List.mem_cons_of_mem m hx)
      · rcases hbad with ⟨x, hxmem, sigx, hsigx, hsigxinv⟩
        rcases List.mem_cons.mp hxmem with hxm | hxrest
        · subst hxm
          rw [hsig] at hsigx
          cases hsigx
          exact absurd hsigxinv hinv
        · exact ⟨x, hxrest, sigx, hsigx, hsigxinv⟩

/-- Claim C4: a service whose capability list contains an entry whose named
method deviates from the required signature — while every entry passes the
name/verb and method-existence checks — makes introspection fail with an
invalid-signature error; the `Except.error` result carries no descriptors,
however many other entries are valid. -/
theorem C4_all_or_nothing (svc : ServiceM)
    (hreg : svc.hasRegisterMethods = true)
    (hok : ∀ m ∈ svc.methods, (m.name == "") = false ∧ (m.httpMethod == "") = false ∧
      ∃ sig, svc.methodSet.lookup m.name = some sig)
    (hbad : ∃ m ∈ svc.methods, ∃ sig,
      svc.methodSet.lookup m.name = some sig ∧ sigInvalid sig = true) :
    ∃ nm, getServiceInfo svc = .error ("invalid signature for method " ++ nm) := by
  obtain ⟨nm, hval⟩ := validateMethods_invalid_sig svc svc.methods hok hbad
  refine ⟨nm, ?_⟩
  simp only [getServiceInfo, hreg, Bool.not_true, Bool.false_eq_true, if_false, hval]

/-- A method whose reflected signature has only one output. -/
def sigOneOut : MethodSig := { numIn := 2, numOut := 1, out1IsError := true, func := echoFunc }

/-- A service declaring one valid capability and one whose method has an
invalid signature. -/
def svcC4 : ServiceM :=
  { hasRegisterMethods := true
    methods :=
      [{ name := "Hello", httpMethod := "GET", inputType := .stringT,
         outputType := .stringT, func := some echoFunc },
       { name := "Bad", httpMethod := "POST", inputType := .stringT,
         outputType := .stringT, func := some echoFunc }]
    methodSet := [("Hello", sigOK), ("Bad", sigOneOut)] }

/-- Witness for C4: introspection of `svcC4` fails with an
invalid-signature error even though its first entry is valid. -/
theorem C4_witness :
    ∃ nm, getServiceInfo svcC4 = .error ("invalid signature for method " ++ nm) :=
  C4_all_or_nothing svcC4 rfl
    (by
      intro m hm
      rcases List.mem_cons.mp hm with h | h
      · subst h; exact ⟨rfl, rfl, sigOK, rfl⟩
      · rcases List.mem_cons.mp h with h2 | h2
        · subst h2; exact ⟨rfl, rfl, sigOneOut, rfl⟩
        · cases h2)
    ⟨{ name := "Bad", httpMethod := "POST", inputType := .stringT,
       outputType := .stringT, func := some echoFunc },
     by simp [svcC4], sigOneOut, rfl, rfl⟩

/-! ### Claim C6 -/

theorem registerRoutes_skip_invalid (pre post : List MethodInfo) (bad : MethodInfo)
    (pfx : String) (h : isValidHTTPMethod bad.httpMethod = false) :
    registerRoutes (pre ++ bad :: post) pfx = registerRoutes (pre ++ post) pfx := by
  simp [registerRoutes, List.filterMap_append, List.filterMap_cons, h]

theorem updateSwaggerPaths_skip_invalid (paths : SwaggerPaths) (pre post : List MethodInfo)
    (bad : MethodInfo) (pfx : String) (h : isValidHTTPMethod bad.httpMethod = false) :
    updateSwaggerPaths paths (pre ++ bad :: post) pfx =
      updateSwaggerPaths paths (pre ++ post) pfx := by
  simp [updateSwaggerPaths, List.foldl_append, List.foldl_cons, h]

theorem getServiceInfo_ok (svc : ServiceM)
    (hreg : svc.hasRegisterMethods = true)
    (hval : validateMethods svc svc.methods = none)
    (hne : svc.methods ≠ []) :
    getServiceInfo svc = .ok svc.methods := by
  have h0 : (svc.methods.length == 0) = false :=
    beq_eq_false_iff_ne.mpr (fun hc => hne (List.length_eq_zero.mp hc))
  simp only [getServiceInfo, hreg, Bool.not_true, Bool.false_eq_true, if_false, hval, h0]

/-- Claim C6: a declared capability whose verb is not one of the seven
recognized HTTP verbs is silently skipped — registration succeeds, the
routes and the swagger paths are exactly those of the remaining
capabilities, and every other capability with a recognized verb is still
bound. -/
theorem C6_invalid_verb_skipped (svc : ServiceM) (pfx : String)
    (pre post : List MethodInfo) (bad : MethodInfo)
    (hm : svc.methods = pre ++ bad :: post)
    (hreg : svc.hasRegisterMethods = true)
    (hval : validateMethods svc svc.methods = none)
    (hbad : isValidHTTPMethod bad.httpMethod = false) :
    registerService svc pfx =
      .ok (registerRoutes (pre ++ post) pfx,
           updateSwaggerPaths ([] : SwaggerPaths) (pre ++ post) pfx) ∧
    (∀ m ∈ pre ++ post, isValidHTTPMethod m.httpMethod = true →
      (goToUpper m.httpMethod, pfx ++ "/" ++ m.name) ∈ registerRoutes (pre ++ post) pfx) := by
  have hok : getServiceInfo svc = .ok svc.methods :=
    getServiceInfo_ok svc hreg hval (by rw [hm]; simp)
  constructor
  · have h1 : registerRoutes svc.methods pfx = registerRoutes (pre ++ post) pfx := by
      rw [hm]; exact registerRoutes_skip_invalid pre post bad pfx hbad
    have h2 : updateSwaggerPaths ([] : SwaggerPaths) svc.methods pfx =
        updateSwaggerPaths ([] : SwaggerPaths) (pre ++ post) pfx := by
      rw [hm]; exact updateSwaggerPaths_skip_invalid _ pre post bad pfx hbad
    have hlen : 0 < svc.methods.length := by rw [hm]; simp
    simp only [registerService, hok, registerMethodsModel, updateSwaggerDoc, gt_iff_lt,
      hlen, if_true, h1, h2]
  · intro m hmem hvalid
    simp only [registerRoutes, List.mem_filterMap]
    exact ⟨m, hmem, by simp [hvalid]⟩

/-- A capability whose declared verb is unrecognized. -/
def badVerbDecl : MethodInfo :=
  { name := "Bad", httpMethod := "INVALID", inputType := .stringT, outputType := .stringT,
    func := some echoFunc }

/-- A service declaring one GET capability and one capability with an
unrecognized verb; both pass introspection. -/
def svcC6 : ServiceM :=
  { hasRegisterMethods := true
    methods := [mHelloGet, badVerbDecl]
    methodSet := [("Hello", sigOK), ("Bad", sigOK)] }

/-- Witness for C6: registering `svcC6` succeeds, binds and documents only
the Hello capability, and the GET route for Hello is present. -/
theorem C6_witness :
    registerService svcC6 "/v1" =
      .ok (registerRoutes ([mHelloGet] ++ []) "/v1",
           updateSwaggerPaths ([] : SwaggerPaths) ([mHelloGet] ++ []) "/v1") ∧
    (∀ m ∈ [mHelloGet] ++ [], isValidHTTPMethod m.httpMethod = true →
      (goToUpper m.httpMethod, "/v1" ++ "/" ++ m.name) ∈
        registerRoutes ([mHelloGet] ++ []) "/v1") :=
  C6_invalid_verb_skipped svcC6 "/v1" [mHelloGet] [] badVerbDecl rfl rfl rfl rfl

/-! ### Claim C8 -/

/-- Claim C8 counterexample: a struct with a boolean field tagged
json:"flag" synthesizes to an object whose "flag" property is the empty
node — there is no case for `reflect.Bool` in the field switch — so the
node does not carry type "boolean" as the claim states. -/
theorem C8_counterexample_bool_field :
    generateSchema (.structT [("flag", "", .boolT)]) = .obj [("flag", .emptyNode)] [] ∧
    Schema.typeOf Schema.emptyNode ≠ some "boolean" := by
  constructor
  · simp [generateSchema, genStruct, genFieldsAux, fieldSchemaOf, goSplitComma, splitChar,
      assocSet, containsSubstr, containsSub, isPfxOf]
  · simp [Schema.typeOf]

/-- Claim C8 as amended: string, integer and float kinds map to the
documentation types string/integer/number; a boolean field yields the
empty node (no type at all); struct fields recurse through schema
generation; fields whose json tag is empty or "-" are skipped; and a kept
field is emitted under its external serialized name (the part of the json
tag before the first comma), joining the required list when its validate
tag contains "required". -/
theorem C8_amended_schema_mapping :
    (∀ j vt t, j ≠ "" → j ≠ "-" →
      generateSchema (.structT [(j, vt, t)]) =
        .obj [((goSplitComma j).headD "", fieldSchemaOf vt t)]
          (if containsSubstr vt "required" then [(goSplitComma j).headD ""] else [])) ∧
    (∀ vt t rest acc, genFieldsAux (("", vt, t) :: rest) acc = genFieldsAux rest acc) ∧
    (∀ vt t rest acc, genFieldsAux (("-", vt, t) :: rest) acc = genFieldsAux rest acc) ∧
    (∀ vt, (fieldSchemaOf vt .stringT).typeOf = some "string") ∧
    (∀ vt, (fieldSchemaOf vt .intT).typeOf = some "integer") ∧
    (∀ vt, (fieldSchemaOf vt .int32T).typeOf = some "integer") ∧
    (∀ vt, (fieldSchemaOf vt .int64T).typeOf = some "integer") ∧
    (∀ vt, (fieldSchemaOf vt .float32T).typeOf = some "number") ∧
    (∀ vt, (fieldSchemaOf vt .float64T).typeOf = some "number") ∧
    (∀ vt, fieldSchemaOf vt .boolT = .emptyNode) ∧
    (∀ vt fs, fieldSchemaOf vt (.structT fs) = generateSchema (.structT fs)) := by
  refine ⟨?_, ?_, ?_, ?_, ?_, ?_, ?_, ?_, ?_, ?_, ?_⟩
  · intro j vt t hj1 hj2
    have h1 : (j == "") = false := beq_eq_false_iff_ne.mpr hj1
    have h2 : (j == "-") = false := beq_eq_false_iff_ne.mpr hj2
    show genStruct [(j, vt, t)] = _
    simp [genStruct, genFieldsAux, h1, h2, assocSet]
  · intro vt t rest acc; simp [genFieldsAux]
  · intro vt t rest acc; simp [genFieldsAux]
  · intro vt; simp [fieldSchemaOf, Schema.typeOf]
  · intro vt; simp [fieldSchemaOf, Schema.typeOf]
  · intro vt; simp [fieldSchemaOf, Schema.typeOf]
  · intro vt; simp [fieldSchemaOf, Schema.typeOf]
  · intro vt; simp [fieldSchemaOf, Schema.typeOf]
  · intro vt; simp [fieldSchemaOf, Schema.typeOf]
  · intro vt; simp [fieldSchemaOf]
  · intro vt fs; simp [fieldSchemaOf, generateSchema]

/-- Witness for C8 (amended): a required string field tagged
json:"name,omitempty" is emitted as an optional-constraint string property
under the external name "name" and joins the required list. -/
theorem C8_amended_witness :
    generateSchema (.structT [("name,omitempty", "required", .stringT)]) =
      .obj [("name", Schema.prim "string" none none none none none)] ["name"] := by
  have h := C8_amended_schema_mapping.1 "name,omitempty" "required" .stringT
    (by decide) (by decide)
  rw [h]
  simp [fieldSchemaOf, tagBoundInt, containsSubstr, containsSub, isPfxOf, goSplitComma,
    splitChar]

/-! ### Claim C9 -/

/-- Claim C9: when introspection succeeds, the returned descriptor list is
exactly the slice the service's `RegisterMethods` produced — the method
function resolved during validation is written only to the per-iteration
copy, never stored back, so each descriptor's `Func` field is whatever the
declaration supplied. -/
theorem C9_descriptors_unchanged (svc : ServiceM) (ms : List MethodInfo)
    (h : getServiceInfo svc = .ok ms) : ms = svc.methods := by
  simp only [getServiceInfo] at h
  split at h
  · cases h
  · split at h
    · cases h
    · split at h
      · cases h
      · injection h with h2; exact h2.symm

/-- A declared capability whose `Func` field is the zero value. -/
def declC9 : MethodInfo :=
  { name := "Hello", httpMethod := "GET", inputType := .stringT, outputType := .stringT,
    func := none }

/-- A service declaring `declC9`, whose real method set does supply a
callable for "Hello". -/
def svcC9 : ServiceM :=
  { hasRegisterMethods := true, methods := [declC9], methodSet := [("Hello", sigOK)] }

/-- Witness for C9: introspection succeeds and hands back the declaration
as-is — its `Func` is still the zero value even though validation resolved
a real method function by name. -/
theorem C9_witness :
    [declC9] = svcC9.methods ∧ declC9.func = none ∧
    (svcC9.methodSet.lookup "Hello").isSome = true :=
  ⟨C9_descriptors_unchanged svcC9 [declC9] rfl, rfl, rfl⟩

/-! ### Claim C10 -/

/-- Claim C10: for a GET capability with string-kinded input, the handler's
behaviour is fully determined by the query parameter literally named
"name" — independent of the capability's name — with a missing parameter
read as the empty string; and the synthesized operation for any GET
capability (whatever its input shape) declares exactly one optional string
query parameter named "name". -/
theorem C10_query_param_literally_name :
    (∀ ext m req, m.httpMethod = "GET" → m.inputType = .stringT →
      handleMethod ext m req = finishCall m (.strV ((req.query.lookup "name").getD ""))) ∧
    (∀ m, m.httpMethod = "GET" →
      (operationFor m).parameters =
        some [{ name := "name", location := "query", required := false,
                schemaType := "string" }]) := by
  constructor
  · intro ext m req hverb hty
    simp [handleMethod, hty, hverb, GoType.kindIsString, queryParam]
  · intro m hverb
    simp [operationFor, hverb]

/-- A GET capability whose name differs from "name". -/
def mC10 : MethodInfo :=
  { name := "Whatever", httpMethod := "GET", inputType := .stringT, outputType := .stringT,
    func := some echoFunc }

/-- A GET capability with structured input shape. -/
def mC10struct : MethodInfo :=
  { name := "Search", httpMethod := "GET",
    inputType := .structT [("name", "required", .stringT)], outputType := .stringT,
    func := some echoFunc }

/-- Witness for C10: the handler of a capability named "Whatever" reads the
query parameter "name"; the operation of a structured-input GET capability
still declares the single "name" query parameter. -/
theorem C10_witness :
    handleMethod noBind mC10 { query := [("name", "Test")], body := "" } =
      .okJson (.strV "Test") ∧
    (operationFor mC10struct).parameters =
      some [{ name := "name", location := "query", required := false,
              schemaType := "string" }] :=
  ⟨(C10_query_param_literally_name.1 noBind mC10
      { query := [("name", "Test")], body := "" } rfl rfl).trans (by rfl),
   C10_query_param_literally_name.2 mC10struct rfl⟩

end Httpc
